import Mathlib

/-!
Verification of the spotify-to-plex core against its specification.

The definitions below are a shallow embedding of the Python sources:
`spotify_to_plex/utils/cache.py`, `spotify_to_plex/modules/plex/main.py`,
`spotify_to_plex/modules/spotify/main.py` and
`spotify_to_plex/modules/spotify_to_plex/main.py`.  External collaborators
(the Plex server's search API, the Spotify web API) are modelled either as
abstract function parameters or, where a concrete counterexample requires
it, by the documented case-insensitive containment semantics of the Plex
`title` filter.
-/

set_option maxHeartbeats 1000000

namespace SpotifyToPlex

/-! ## String utilities

Python's substring operator `sub in s` used throughout the sources
(`"Discover Weekly" in playlist_name`, artist containment checks).
-/

/-- Boolean test that `p` is an initial segment of `l`. -/
def charsPrefixOf : List Char → List Char → Bool
  | [], _ => true
  | _ :: _, [] => false
  | a :: as, b :: bs => a == b && charsPrefixOf as bs

/-- Boolean test that `sub` occurs contiguously inside `l`. -/
def charsInfixOf : List Char → List Char → Bool
  | sub, [] => charsPrefixOf sub []
  | sub, b :: bs => charsPrefixOf sub (b :: bs) || charsInfixOf sub bs

/-- Python's `sub in s` substring containment on strings. -/
def strContainsSub (s sub : String) : Bool :=
  charsInfixOf sub.data s.data

/-- Python's `str.lower()`, modelled character-wise. -/
def strToLower (s : String) : String :=
  ⟨s.data.map Char.toLower⟩

theorem charsPrefixOf_append (p rest : List Char) :
    charsPrefixOf p (p ++ rest) = true := by
  induction p with
  | nil => rfl
  | cons a as ih => simp [charsPrefixOf, ih]

theorem charsInfixOf_of_charsPrefixOf (sub l : List Char)
    (h : charsPrefixOf sub l = true) : charsInfixOf sub l = true := by
  cases l with
  | nil => simpa [charsInfixOf] using h
  | cons b bs => simp [charsInfixOf, h]

theorem charsInfixOf_append_left (pre sub l : List Char)
    (h : charsInfixOf sub l = true) :
    charsInfixOf sub (pre ++ l) = true := by
  induction pre with
  | nil => simpa using h
  | cons a as ih => simp [charsInfixOf, ih]

theorem charsInfixOf_sandwich (pre sub rest : List Char) :
    charsInfixOf sub (pre ++ (sub ++ rest)) = true := by
  apply charsInfixOf_append_left
  exact charsInfixOf_of_charsPrefixOf _ _ (charsPrefixOf_append sub rest)

theorem string_data_append (a b : String) : (a ++ b).data = a.data ++ b.data := by
  cases a; cases b; rfl

/-! ## Result cache (`spotify_to_plex/utils/cache.py`)

The in-memory cache `_MEMORY_CACHE` maps a key to `(timestamp, value)`.
Values are modelled as `Option α`, with `none` standing for Python `None`:
`_get_from_cache` returns the stored value on a fresh hit and `None` on a
miss, so a stored `None` is indistinguishable from a miss, exactly as in
the source.  Timestamps are modelled as rationals (`time.time()` floats).
Dictionary update is modelled by consing, with `List.lookup` returning the
newest binding first.
-/

/-- In-memory cache state: key to (timestamp, stored value). -/
abbrev MemCache (α : Type) := List (String × Rat × Option α)

/-- Embedding of `_get_from_cache` (memory branch, lines 170-179): a hit
returns the stored value when `now - timestamp <= ttl`, otherwise the
entry is treated as absent.  A stored Python `None` is returned as `none`,
conflated with a miss. -/
def getFromCache (c : MemCache α) (key : String) (now ttl : Rat) : Option α :=
  match c.lookup key with
  | some (ts, v) => if now - ts ≤ ttl then v else none
  | none => none

/-- Embedding of `_store_in_cache` (memory branch, line 206):
`_MEMORY_CACHE[cache_key] = (current_time, result)`. -/
def storeInCache (c : MemCache α) (key : String) (now : Rat) (v : Option α) :
    MemCache α :=
  (key, now, v) :: c

/-- Cache operations that can happen between a `Put` and a `Get`: another
`_store_in_cache` call, or `clear_cache` (which empties the store). -/
inductive CacheOp (α : Type) where
  | put (key : String) (time : Rat) (v : Option α)
  | clear
deriving DecidableEq

/-- Whether an operation can disturb the entry stored under `k`:
any `clear`, or a put to the same key. -/
def opTouches : CacheOp α → String → Bool
  | .put k' _ _, k => k' == k
  | .clear, _ => true

/-- Apply one cache operation to the store. -/
def applyOp (c : MemCache α) : CacheOp α → MemCache α
  | .put k t v => storeInCache c k t v
  | .clear => []

/-- Apply a sequence of cache operations in order. -/
def applyOps (c : MemCache α) (ops : List (CacheOp α)) : MemCache α :=
  ops.foldl applyOp c

theorem lookup_applyOps (c : MemCache α) (ops : List (CacheOp α)) (k : String)
    (h : ∀ op ∈ ops, opTouches op k = false) :
    (applyOps c ops).lookup k = c.lookup k := by
  induction ops generalizing c with
  | nil => rfl
  | cons op ops ih =>
    have hop := h op (List.mem_cons_self op ops)
    have hrest : ∀ op' ∈ ops, opTouches op' k = false := fun op' hm =>
      h op' (List.mem_cons_of_mem op hm)
    cases op with
    | put k' t v =>
      have hk : (k' == k) = false := hop
      have hk' : (k == k') = false := by
        rw [beq_eq_false_iff_ne] at hk ⊢
        exact fun h' => hk h'.symm
      have step : applyOps c (CacheOp.put k' t v :: ops)
          = applyOps (storeInCache c k' t v) ops := rfl
      rw [step, ih _ hrest]
      simp [storeInCache, List.lookup, hk']
    | clear => simp [opTouches] at hop

/-- Embedding of the `cache_result` wrapper body (lines 105-129): consult
the cache, on a miss (or stored `None`) execute the wrapped function and
store its result.  Returns the value handed to the caller, whether the
wrapped function was executed, and the new cache state. -/
structure CallResult (α : Type) where
  value : Option α
  executed : Bool
  cache : MemCache α

/-- Embedding of `cache_result`'s `wrapper` for a memory-backed cache:
`enableCache` is `Config.ENABLE_CACHE`, `func` the wrapped function applied
to a fixed argument tuple (its cache key is `key`). -/
def cacheResultWrapper (enableCache : Bool) (c : MemCache α) (key : String)
    (now ttl : Rat) (func : Unit → Option α) : CallResult α :=
  if !enableCache then ⟨func (), true, c⟩
  else
    match getFromCache c key now ttl with
    | some v => ⟨some v, false, c⟩
    | none =>
      let r := func ()
      ⟨r, true, storeInCache c key now r⟩

/-- Whether the entry stored under `key` (if any) holds Python `None`. -/
def storedIsNone (c : MemCache α) (key : String) : Bool :=
  match c.lookup key with
  | some (_, v) => v.isNone
  | none => true

/-! ## Track matching engine (`modules/plex/main.py`, `match_spotify_tracks_in_plex`)

A Plex track carries its title, its artist's name (`grandparentTitle`) and
its library identity (`ratingKey`).  The two search calls the matcher
issues — `music_library.search(title=artist_name)` (via `_search_artist`)
and `music_library.searchTracks(title=..., artist=...)` — belong to the
external Plex server and are modelled as abstract functions; a concrete
instantiation with the Plex `title` filter's documented case-insensitive
containment semantics is given further below.  The embedding assumes the
`Music` section is present.  The per-call dictionaries `artist_cache` and
`track_cache` memoize pure recomputation and are elided; the
instance-level `_track_cache` (lines 129-133 and 206-208), which persists
across calls of one `PlexClass` instance, is modelled explicitly by
`matchSpotifyTracksInPlexSt` below.
-/

/-- A track entity in the Plex library. -/
structure PlexTrack where
  title : String
  grandparentTitle : String
  ratingKey : Nat
deriving DecidableEq, Repr

/-- An artist entity in the Plex library, with its tracks
(`artist_item.tracks()`). -/
structure Artist where
  name : String
  tracks : List PlexTrack
deriving DecidableEq, Repr

/-- The two Plex search calls the matcher consumes, as abstract
collaborator functions: `searchArtists a` is
`music_library.search(title=a)` and `searchTracks t a` is
`music_library.searchTracks(title=t, artist=a)`. -/
structure PlexLib where
  searchArtists : String → List Artist
  searchTracks : String → String → List PlexTrack

/-- Grouping step (lines 148-152): `tracks_by_artist` is a Python dict in
insertion order; track names are appended to their artist's bucket. -/
def addToGroup : List (String × List String) → String → String →
    List (String × List String)
  | [], a, t => [(a, [t])]
  | (a', ts) :: rest, a, t =>
    if a' = a then (a', ts ++ [t]) :: rest else (a', ts) :: addToGroup rest a t

/-- The `tracks_by_artist` dict built from the Spotify `(title, artist)`
pairs, in insertion order. -/
def groupByArtist (pairs : List (String × String)) : List (String × List String) :=
  pairs.foldl (fun acc p => addToGroup acc p.2 p.1) []

/-- The `artist_tracks` dict (lines 168-178): iterate the artist search
results and their tracks, keeping the first track seen per lowercased
title. -/
def buildArtistTracks (results : List Artist) : List (String × PlexTrack) :=
  results.foldl
    (fun m a =>
      a.tracks.foldl
        (fun m tr =>
          if (m.lookup (strToLower tr.title)).isSome then m
          else m ++ [(strToLower tr.title, tr)])
        m)
    []

/-- Matching of one track name inside an artist group (lines 181-204):
an exact lowercased-title hit in `artist_tracks`, otherwise the first
result of the direct `searchTracks(title, artist)` search, otherwise
missing. -/
def matchTitle (lib : PlexLib) (artistTracks : List (String × PlexTrack))
    (artistName title : String) : Option PlexTrack :=
  match artistTracks.lookup (strToLower title) with
  | some tr => some tr
  | none => (lib.searchTracks title artistName).head?

/-- Processing of one `tracks_by_artist` bucket (lines 155-204): an empty
artist search marks every track of the bucket missing; otherwise each
title is matched against the artist's tracks with the direct search as
fallback. -/
def matchGroup (lib : PlexLib) (artistName : String) (titles : List String) :
    List PlexTrack :=
  let results := lib.searchArtists artistName
  if results.isEmpty then []
  else
    let artistTracks := buildArtistTracks results
    titles.filterMap (matchTitle lib artistTracks artistName)

/-- The matching computation of `match_spotify_tracks_in_plex` (lines
135-226), performed when the instance cache misses: group the Spotify
pairs by artist, process each bucket, and concatenate the matched tracks;
unmatched pairs are dropped.  The `_track_cache` early return and store
around it are layered on by `matchSpotifyTracksInPlexSt`. -/
def matchSpotifyTracksInPlex (lib : PlexLib) (spotifyTracks : List (String × String)) :
    List PlexTrack :=
  ((groupByArtist spotifyTracks).map (fun g => matchGroup lib g.1 g.2)).flatten

/-- Python's `":".join(parts)`. -/
def joinColon : List String → String
  | [] => ""
  | [x] => x
  | x :: y :: rest => x ++ ":" ++ joinColon (y :: rest)

/-- The instance cache key of `match_spotify_tracks_in_plex` (line 130):
`":".join([f"{artist}|{track}" for track, artist in spotify_tracks[:5]])`
— derived from only the first five pairs of the batch. -/
def trackCacheKey (spotifyTracks : List (String × String)) : String :=
  joinColon ((spotifyTracks.take 5).map (fun p => p.2 ++ "|" ++ p.1))

/-- Embedding of `match_spotify_tracks_in_plex` (lines 111-226) including
the instance-level `_track_cache` (lines 129-133 and 206-208): a hit on
the first-five-pairs key returns the previously stored matched list
verbatim; on a miss the matching computation runs and its result is
stored when non-empty.  Returns the matched list and the new cache
state. -/
def matchSpotifyTracksInPlexSt (lib : PlexLib)
    (trackCache : List (String × List PlexTrack))
    (spotifyTracks : List (String × String)) :
    List PlexTrack × List (String × List PlexTrack) :=
  let key := trackCacheKey spotifyTracks
  match trackCache.lookup key with
  | some cached => (cached, trackCache)
  | none =>
    let matched := matchSpotifyTracksInPlex lib spotifyTracks
    if matched.isEmpty then (matched, trackCache)
    else (matched, (key, matched) :: trackCache)

/-! ### Concrete Plex search semantics

Modelled from the external collaborator's documented behaviour (not from
this repository's sources): the Plex `title` filter used by
`section.search(title=q)` and `searchTracks(title=..., artist=...)` is a
case-insensitive containment test — an item matches when its native title
contains the query string.  This instantiation lets claims about "a
target library containing ..." be stated against a concrete library.
-/

/-- A concrete Plex music library: its artist entities. -/
structure MusicLibrary where
  artists : List Artist
deriving DecidableEq, Repr

/-- Concrete `music_library.search(title=q)`: artists whose name contains
the query, case-insensitively. -/
def plexSearchArtists (lib : MusicLibrary) (q : String) : List Artist :=
  lib.artists.filter (fun a => strContainsSub (strToLower a.name) (strToLower q))

/-- Concrete `music_library.searchTracks(title=t, artist=a)`: tracks whose
title contains `t` and whose artist name contains `a`, case-insensitively. -/
def plexSearchTracks (lib : MusicLibrary) (t a : String) : List PlexTrack :=
  ((lib.artists.map Artist.tracks).flatten).filter
    (fun tr => strContainsSub (strToLower tr.title) (strToLower t)
      && strContainsSub (strToLower tr.grandparentTitle) (strToLower a))

/-- Package a concrete library as the matcher's collaborator interface. -/
def libOf (lib : MusicLibrary) : PlexLib :=
  ⟨plexSearchArtists lib, plexSearchTracks lib⟩

/-! ## Playlist materialization (`modules/plex/main.py`, lines 257-486)

`create_playlist`, `update_playlist` and `create_or_update_playlist` are
modelled as pure functions returning the resulting playlist contents
(`none` on failure) together with the trace of mutations issued to the
Plex server. -/

/-- Chunk size used when adding tracks to a playlist. -/
def CHUNK_SIZE : Nat := 300

/-- Fuel-driven chunking of a list into consecutive `CHUNK_SIZE` pieces. -/
def chunkGo : Nat → List α → List (List α)
  | _, [] => []
  | 0, _ :: _ => []
  | fuel + 1, x :: xs =>
    (x :: xs).take CHUNK_SIZE :: chunkGo fuel ((x :: xs).drop CHUNK_SIZE)

/-- Split a list into consecutive chunks of `CHUNK_SIZE`
(`range(0, len(tracks), CHUNK_SIZE)`). -/
def chunkList (l : List α) : List (List α) :=
  chunkGo l.length l

/-- A mutation issued to the Plex server while materializing a playlist. -/
inductive PlexEffect where
  | createPlaylist (name : String) (items : List PlexTrack)
  | addItems (name : String) (items : List PlexTrack)
  | deletePlaylist (name : String)
  | editSummary (name : String)
  | setCover (name : String)
deriving DecidableEq, Repr

/-- Embedding of `create_playlist` (lines 257-325): create with the first
`CHUNK_SIZE` tracks, edit the summary, set cover art when present, then
add the remaining tracks chunk by chunk.  The resulting playlist holds
all the tracks. -/
def createPlaylistM (name : String) (tracks : List PlexTrack)
    (coverUrl : Option String) : Option (List PlexTrack) × List PlexEffect :=
  (some tracks,
    [PlexEffect.createPlaylist name (tracks.take CHUNK_SIZE),
     PlexEffect.editSummary name]
    ++ (match coverUrl with
        | some _ => [PlexEffect.setCover name]
        | none => [])
    ++ (chunkList (tracks.drop CHUNK_SIZE)).map (PlexEffect.addItems name))

/-- The update path's duplicate filter (lines 380-395): append only the
tracks whose `ratingKey` is not already present in the playlist. -/
def dedupAppend (existingItems tracks : List PlexTrack) : List PlexTrack :=
  existingItems
    ++ tracks.filter
      (fun t => !(existingItems.any (fun e => e.ratingKey == t.ratingKey)))

/-- Embedding of `update_playlist` (lines 327-414): under the replacement
policy the playlist is deleted and recreated; otherwise the summary and
cover are refreshed and only not-yet-present tracks (by `ratingKey`) are
appended, chunked. -/
def updatePlaylistM (replace : Bool) (existingItems : List PlexTrack)
    (name : String) (tracks : List PlexTrack) (coverUrl : Option String) :
    Option (List PlexTrack) × List PlexEffect :=
  if replace then
    let c := createPlaylistM name tracks coverUrl
    (c.1, PlexEffect.deletePlaylist name :: c.2)
  else
    let newTracks :=
      tracks.filter
        (fun t => !(existingItems.any (fun e => e.ratingKey == t.ratingKey)))
    (some (existingItems ++ newTracks),
      [PlexEffect.editSummary name]
      ++ (match coverUrl with
          | some _ => [PlexEffect.setCover name]
          | none => [])
      ++ (chunkList newTracks).map (PlexEffect.addItems name))

/-- Embedding of `create_or_update_playlist` (lines 445-486): an empty
track list returns `None` immediately, before any lookup or mutation;
otherwise the existing playlist (found by exact name, `existing`) is
updated, or a new one is created. -/
def createOrUpdatePlaylist (replace : Bool) (existing : Option (List PlexTrack))
    (name : String) (tracks : List PlexTrack) (coverUrl : Option String) :
    Option (List PlexTrack) × List PlexEffect :=
  if tracks.isEmpty then (none, [])
  else
    match existing with
    | some items => updatePlaylistM replace items name tracks coverUrl
    | none => createPlaylistM name tracks coverUrl

/-! ## Spotify client (`modules/spotify/main.py`) and the per-playlist
pipeline (`modules/spotify_to_plex/main.py`)

Spotify API responses for one playlist are modelled as an abstract
outcome: a successful payload, a 404 (deleted/private playlist), or a
persistent other error. -/

/-- Outcome of a Spotify API call for a playlist. -/
inductive SpotifyResponse (α : Type) where
  | ok (a : α)
  | notFound
  | err
deriving DecidableEq, Repr

/-- Embedding of `get_playlist_name` (lines 255-328) for a fresh client:
returns the display name and whether the playlist was recorded in
`_unavailable_playlists`.  A 404 yields the `"Unavailable Playlist (id)"`
fallback and marks the playlist unavailable; an empty name yields the
`"Unnamed Playlist (id)"` fallback; exhausted retries yield
`"Error Playlist (id)"`.  Every branch returns a string — the function
never returns Python `None` and never raises. -/
def getPlaylistNameSt (resp : SpotifyResponse String) (pid : String) :
    String × Bool :=
  match resp with
  | .ok n =>
    (if n = "" then "Unnamed Playlist (" ++ pid ++ ")" else n, false)
  | .notFound => ("Unavailable Playlist (" ++ pid ++ ")", true)
  | .err => ("Error Playlist (" ++ pid ++ ")", false)

/-- Embedding of `get_playlist_tracks` (lines 149-252): a playlist marked
unavailable short-circuits to `[]`; a 404 or any other error is swallowed
and yields the tracks accumulated so far (`[]`). -/
def getPlaylistTracks (markedUnavailable : Bool)
    (resp : SpotifyResponse (List (String × String))) :
    List (String × String) :=
  if markedUnavailable then []
  else
    match resp with
    | .ok ts => ts
    | .notFound => []
    | .err => []

/-- Embedding of the dynamic-name rule (`_process_playlist`, lines
527-531): names containing `"Discover Weekly"` or `"Daily Mix"` get the
current date appended. -/
def addDateToDynamicName (playlistName currentDate : String) : String :=
  if strContainsSub playlistName "Discover Weekly"
      || strContainsSub playlistName "Daily Mix" then
    playlistName ++ " " ++ currentDate
  else playlistName

/-- Collaborator behaviour for one sync job: the Spotify responses for the
playlist, the Plex search interface, the existing playlist found under the
final name, the configuration, plus two orchestration facts — whether an
exception escapes the pipeline's inner handlers (re-raised at line 645,
e.g. from console output) and whether the worker thread finishes within
the 300-second budget. -/
structure JobBehavior where
  pid : String
  nameResp : SpotifyResponse String
  tracksResp : SpotifyResponse (List (String × String))
  poster : Option String
  lib : PlexLib
  existing : Option (List PlexTrack)
  replace : Bool
  currentDate : String
  raisesUnexpected : Bool
  completesInTime : Bool

/-- Where `_process_playlist` (lines 459-645) returns.  Every exit is an
ordinary `return`: none of them raises.  `nameMissing` is the
`playlist_name` falsy branch (line 515), `noTracks` the empty Spotify
track list (line 557), `noMatches` the empty Plex match list (line 610),
`createFailed` the falsy `create_or_update_playlist` result (line 637). -/
inductive PipelineExit where
  | nameMissing
  | noTracks
  | noMatches
  | createFailed
  | success
deriving DecidableEq, Repr

/-- Embedding of `_process_playlist` (lines 459-645): fetch the name
(appending the date for dynamic playlists), fetch the tracks, match them
in Plex, then create or update the playlist.  Returns the exit point and
the Plex mutations performed. -/
def processPlaylist (b : JobBehavior) : PipelineExit × List PlexEffect :=
  let nm := getPlaylistNameSt b.nameResp b.pid
  if nm.1 = "" then (PipelineExit.nameMissing, [])
  else
    let finalName := addDateToDynamicName nm.1 b.currentDate
    let tracks := getPlaylistTracks nm.2 b.tracksResp
    if tracks.isEmpty then (PipelineExit.noTracks, [])
    else
      let plexTracks := matchSpotifyTracksInPlex b.lib tracks
      if plexTracks.isEmpty then (PipelineExit.noMatches, [])
      else
        match createOrUpdatePlaylist b.replace b.existing finalName
            plexTracks b.poster with
        | (some _, effs) => (PipelineExit.success, effs)
        | (none, effs) => (PipelineExit.createFailed, effs)

/-- Embedding of `_process_playlist_with_timeout` (lines 338-393): the
worker thread runs `_process_playlist` and sets `result["success"] = True`
unless an exception escapes it; a worker still alive after the budget
makes the call return `False` immediately, abandoning the thread and
never consulting its (late) result. -/
def processPlaylistWithTimeout (b : JobBehavior) : Bool :=
  if b.completesInTime then
    if b.raisesUnexpected then false else true
  else false

/-- Embedding of the sequential driver `_process_playlists_sequential`
(lines 130-204): every playlist is processed in turn and the
`(completed_playlists, failed_playlists)` counters are updated from the
boolean outcome.  These two counters are the only terminal record a job
leaves. -/
def processSequential (jobs : List JobBehavior) : Nat × Nat :=
  jobs.foldl
    (fun acc b =>
      if processPlaylistWithTimeout b then (acc.1 + 1, acc.2)
      else (acc.1, acc.2 + 1))
    (0, 0)

/-! ## Helper lemmas -/

theorem strContains_append_of_left (a b : String) :
    strContainsSub (a ++ b) a = true := by
  rw [strContainsSub, string_data_append]
  simpa using charsInfixOf_sandwich [] a.data b.data

theorem strContains_append_of_right (a b : String) :
    strContainsSub (a ++ b) b = true := by
  rw [strContainsSub, string_data_append]
  simpa using charsInfixOf_sandwich a.data b.data []

theorem string_ne_empty_of_data_ne_nil (a : String) (h : a.data ≠ []) :
    a ≠ "" := fun he => h (by rw [he])

theorem data_append_ne_nil (a b : String) (h : a.data ≠ []) :
    (a ++ b).data ≠ [] := by
  rw [string_data_append]
  intro he
  rcases List.append_eq_nil.mp he with ⟨h1, _⟩
  exact h h1

/-! ## Claim theorems -/

/-- C8: a source playlist name containing "Discover Weekly" or "Daily
Mix" yields a materialized name that is the source name with the current
date appended — hence containing both the original name and the date —
while every other name is used unchanged. -/
theorem dynamicNameGetsDate (name date : String) :
    ((strContainsSub name "Discover Weekly" = true
        ∨ strContainsSub name "Daily Mix" = true) →
      addDateToDynamicName name date = name ++ " " ++ date
        ∧ strContainsSub (addDateToDynamicName name date) name = true
        ∧ strContainsSub (addDateToDynamicName name date) date = true) ∧
    (strContainsSub name "Discover Weekly" = false →
      strContainsSub name "Daily Mix" = false →
      addDateToDynamicName name date = name) := by
  constructor
  · intro h
    have hcond : (strContainsSub name "Discover Weekly"
        || strContainsSub name "Daily Mix") = true := by
      rcases h with h | h <;> simp [h]
    have heq : addDateToDynamicName name date = name ++ " " ++ date := by
      simp [addDateToDynamicName, hcond]
    refine ⟨heq, ?_, ?_⟩
    · rw [heq, strContainsSub, string_data_append, string_data_append,
        List.append_assoc]
      simpa using charsInfixOf_sandwich [] name.data (" ".data ++ date.data)
    · rw [heq]
      exact strContains_append_of_right (name ++ " ") date
  · intro h1 h2
    simp [addDateToDynamicName, h1, h2]

/-- C8 witness: the name "Discover Weekly" gets the date appended. -/
theorem dynamicNameGetsDate_witness :
    strContainsSub "Discover Weekly" "Discover Weekly" = true ∧
    addDateToDynamicName "Discover Weekly" "October 12"
      = "Discover Weekly October 12" ∧
    strContainsSub (addDateToDynamicName "Discover Weekly" "October 12")
      "Discover Weekly" = true ∧
    strContainsSub (addDateToDynamicName "Discover Weekly" "October 12")
      "October 12" = true :=
  ⟨by decide,
    by
      have h := (dynamicNameGetsDate "Discover Weekly" "October 12").1
        (Or.inl (by decide))
      exact ⟨by rw [h.1]; decide, h.2.1, h.2.2⟩⟩

/-- C10: `create_or_update_playlist` called with an empty matched-track
list returns `None` and issues no mutation to the target library,
whatever the replacement policy and whether a playlist with that name
already exists. -/
theorem emptyTracksNoMutation (replace : Bool)
    (existing : Option (List PlexTrack)) (name : String)
    (coverUrl : Option String) :
    createOrUpdatePlaylist replace existing name [] coverUrl = (none, []) := by
  simp [createOrUpdatePlaylist]

/-- C4: after `Put` of value `v` at time `s` under key `k`, with any
intervening operations that neither clear the store nor write `k`, a
`Get` at time `u` with `u - s > t` misses although the entry is still
physically present, and a `Get` with `u - s ≤ t` returns exactly the
stored value. -/
theorem cacheTtlCorrect (c : MemCache α) (k : String) (s : Rat)
    (v : Option α) (t u : Rat) (ops : List (CacheOp α))
    (hops : ∀ op ∈ ops, opTouches op k = false) :
    (u - s > t →
      getFromCache (applyOps (storeInCache c k s v) ops) k u t = none
        ∧ (applyOps (storeInCache c k s v) ops).lookup k = some (s, v)) ∧
    (u - s ≤ t →
      getFromCache (applyOps (storeInCache c k s v) ops) k u t = v) := by
  have hl : (applyOps (storeInCache c k s v) ops).lookup k = some (s, v) := by
    rw [lookup_applyOps _ _ _ hops]
    simp [storeInCache, List.lookup]
  constructor
  · intro hgt
    refine ⟨?_, hl⟩
    rw [getFromCache, hl]
    simp [not_le.mpr hgt]
  · intro hle
    rw [getFromCache, hl]
    simp [hle]

/-- C4 witness: value 7 stored at time 0 with TTL 10 and an unrelated
intervening put: a read at time 11 misses while the entry is still
present; a read at time 5 returns 7. -/
theorem cacheTtlCorrect_witness :
    (getFromCache (applyOps (storeInCache ([] : MemCache Nat) "k" 0 (some 7))
        [CacheOp.put "other" 3 (some 1)]) "k" 11 10 = none
      ∧ (applyOps (storeInCache ([] : MemCache Nat) "k" 0 (some 7))
          [CacheOp.put "other" 3 (some 1)]).lookup "k" = some (0, some 7)) ∧
    getFromCache (applyOps (storeInCache ([] : MemCache Nat) "k" 0 (some 7))
      [CacheOp.put "other" 3 (some 1)]) "k" 5 10 = some 7 :=
  ⟨(cacheTtlCorrect [] "k" 0 (some 7) 10 11 [CacheOp.put "other" 3 (some 1)]
      (by decide)).1 (by norm_num),
    (cacheTtlCorrect [] "k" 0 (some 7) 10 5 [CacheOp.put "other" 3 (some 1)]
      (by decide)).2 (by norm_num)⟩

/-- C9: when the entry stored for a key (if any) holds Python `None`, the
`cache_result` wrapper executes the wrapped function even with caching
enabled — a stored `None` reads as a miss — and the returned value is the
function's own result, identical to the value with caching disabled. -/
theorem storedNoneNeverServed (c : MemCache α) (k : String) (now ttl : Rat)
    (func : Unit → Option α) (hstored : storedIsNone c k = true)
    (hfn : func () = none) :
    (cacheResultWrapper true c k now ttl func).executed = true ∧
    (cacheResultWrapper true c k now ttl func).value = none ∧
    (cacheResultWrapper true c k now ttl func).value
      = (cacheResultWrapper false c k now ttl func).value := by
  have hget : getFromCache c k now ttl = none := by
    rw [getFromCache]
    rw [storedIsNone] at hstored
    cases hc : c.lookup k with
    | none => simp
    | some p =>
      obtain ⟨ts, v⟩ := p
      rw [hc] at hstored
      cases v with
      | none => simp
      | some x => simp at hstored
  simp [cacheResultWrapper, hget, hfn]

/-- C9 witness: a `(timestamp, None)` entry stored under the key does not
stop the wrapped function from running again. -/
theorem storedNoneNeverServed_witness :
    storedIsNone [("k", (0 : Rat), (none : Option Nat))] "k" = true ∧
    (cacheResultWrapper true [("k", (0 : Rat), (none : Option Nat))] "k" 1 10
      (fun _ => none)).executed = true :=
  ⟨by decide,
    (storedNoneNeverServed [("k", (0 : Rat), none)] "k" 1 10 (fun _ => none)
      (by decide) rfl).1⟩

theorem dedupAppend_eq_self (p ts : List PlexTrack)
    (h : ∀ t ∈ ts, p.any (fun e => e.ratingKey == t.ratingKey) = true) :
    dedupAppend p ts = p := by
  rw [dedupAppend]
  have hf : ts.filter
      (fun t => !(p.any (fun e => e.ratingKey == t.ratingKey))) = [] := by
    apply List.filter_eq_nil_iff.mpr
    intro t ht
    simp [h t ht]
  simp [hf]

theorem mem_keys_dedupAppend (items ts : List PlexTrack) (t : PlexTrack)
    (ht : t ∈ ts) :
    (dedupAppend items ts).any (fun e => e.ratingKey == t.ratingKey) = true := by
  rw [dedupAppend, List.any_append]
  cases hb : items.any (fun e => e.ratingKey == t.ratingKey) with
  | true => simp
  | false =>
    apply Bool.or_eq_true_iff.mpr
    right
    apply List.any_eq_true.mpr
    refine ⟨t, List.mem_filter.mpr ⟨ht, by simp [hb]⟩, by simp⟩

/-- C6: with the replacement policy off (update in place), materializing
the same matched-track list a second time leaves the playlist's contents
unchanged — every track already present by `ratingKey` is filtered out
before insertion. -/
theorem updatePolicyIdempotent (existing : Option (List PlexTrack))
    (ts : List PlexTrack) (name name2 : String) (cover cover2 : Option String)
    (hts : ts ≠ []) :
    ∃ p1, (createOrUpdatePlaylist false existing name ts cover).1 = some p1
      ∧ (createOrUpdatePlaylist false (some p1) name2 ts cover2).1 = some p1 := by
  have hne : ts.isEmpty = false := by
    cases ts with
    | nil => exact absurd rfl hts
    | cons a l => rfl
  have second : ∀ p1, (∀ t ∈ ts,
        p1.any (fun e => e.ratingKey == t.ratingKey) = true) →
      (createOrUpdatePlaylist false (some p1) name2 ts cover2).1 = some p1 := by
    intro p1 hkeys
    rw [createOrUpdatePlaylist]
    simp only [hne, Bool.false_eq_true, if_false]
    simp only [updatePlaylistM]
    simp only [if_neg (by simp : ¬(false = true))]
    have hf : ts.filter
        (fun t => !(p1.any (fun e => e.ratingKey == t.ratingKey))) = [] := by
      apply List.filter_eq_nil_iff.mpr
      intro t ht
      simp [hkeys t ht]
    simp [hf]
  cases existing with
  | none =>
    refine ⟨ts, ?_, ?_⟩
    · rw [createOrUpdatePlaylist]
      simp [hne, createPlaylistM]
    · exact second ts (fun t ht => List.any_eq_true.mpr ⟨t, ht, by simp⟩)
  | some items =>
    refine ⟨dedupAppend items ts, ?_, ?_⟩
    · rw [createOrUpdatePlaylist]
      simp only [hne, Bool.false_eq_true, if_false]
      simp only [updatePlaylistM]
      simp [dedupAppend]
    · exact second _ (fun t ht => mem_keys_dedupAppend items ts t ht)

/-- C6 witness: one track synced onto an empty target: the second run
re-adds nothing. -/
theorem updatePolicyIdempotent_witness :
    ∃ p1, (createOrUpdatePlaylist false none "P"
        [⟨"Song X", "Artist", 1⟩] none).1 = some p1
      ∧ (createOrUpdatePlaylist false (some p1) "P"
          [⟨"Song X", "Artist", 1⟩] none).1 = some p1 :=
  updatePolicyIdempotent none [⟨"Song X", "Artist", 1⟩] "P" "P" none none
    (by decide)

theorem sum_addToGroup (g : List (String × List String)) (a t : String) :
    ((addToGroup g a t).map (fun x => x.2.length)).sum
      = ((g.map (fun x => x.2.length)).sum) + 1 := by
  induction g with
  | nil => simp [addToGroup]
  | cons p rest ih =>
    obtain ⟨a', ts⟩ := p
    by_cases h : a' = a
    · simp [addToGroup, h]
      omega
    · simp [addToGroup, h, ih]
      omega

theorem sum_groupByArtist_aux (pairs : List (String × String))
    (acc : List (String × List String)) :
    (((pairs.foldl (fun acc p => addToGroup acc p.2 p.1) acc)).map
        (fun x => x.2.length)).sum
      = (acc.map (fun x => x.2.length)).sum + pairs.length := by
  induction pairs generalizing acc with
  | nil => simp
  | cons p ps ih =>
    rw [List.foldl_cons, ih, sum_addToGroup]
    simp
    omega

theorem matchGroup_length_le (lib : PlexLib) (a : String)
    (ts : List String) : (matchGroup lib a ts).length ≤ ts.length := by
  rw [matchGroup]
  cases h : (lib.searchArtists a).isEmpty with
  | true => simp [h]
  | false =>
    simp only [h, Bool.false_eq_true, if_false]
    exact List.length_filterMap_le _ _

theorem matchGroups_length_le (lib : PlexLib)
    (gs : List (String × List String)) :
    ((gs.map (fun g => matchGroup lib g.1 g.2)).flatten).length
      ≤ (gs.map (fun x => x.2.length)).sum := by
  induction gs with
  | nil => simp
  | cons g gs ih =>
    simp only [List.map_cons, List.flatten_cons, List.length_append]
    have := matchGroup_length_le lib g.1 g.2
    simp only [List.sum_cons]
    omega

/-- Best-effort properties of the cache-miss matching computation: it
returns at most as many matched tracks as it is given Spotify pairs, and
over a target library with no candidates at all (every artist search
comes back empty) it returns the empty list. -/
theorem matchAllBestEffort (lib : PlexLib) (pairs : List (String × String)) :
    (matchSpotifyTracksInPlex lib pairs).length ≤ pairs.length ∧
    ((∀ a, lib.searchArtists a = []) →
      matchSpotifyTracksInPlex lib pairs = []) := by
  constructor
  · rw [matchSpotifyTracksInPlex]
    calc ((groupByArtist pairs).map
            (fun g => matchGroup lib g.1 g.2)).flatten.length
        ≤ ((groupByArtist pairs).map (fun x => x.2.length)).sum :=
          matchGroups_length_le lib (groupByArtist pairs)
      _ = pairs.length := by
          rw [groupByArtist, sum_groupByArtist_aux]
          simp
  · intro hA
    rw [matchSpotifyTracksInPlex]
    have hg : ∀ a ts, matchGroup lib a ts = [] := by
      intro a ts
      rw [matchGroup]
      simp [hA a]
    generalize groupByArtist pairs = gs
    induction gs with
    | nil => rfl
    | cons g gs ih =>
      simp only [List.map_cons, List.flatten_cons, hg g.1 g.2,
        List.nil_append]
      exact ih

/-- An entirely unproductive Plex interface: every search returns nothing. -/
def emptyPlexLib : PlexLib := ⟨fun _ => [], fun _ _ => []⟩

/-- A library with six matchable tracks by "art" and nothing matching
the artist "zz". -/
def staleCacheLib : MusicLibrary :=
  ⟨[⟨"art", [⟨"a", "art", 1⟩, ⟨"b", "art", 2⟩, ⟨"c", "art", 3⟩,
    ⟨"d", "art", 4⟩, ⟨"e", "art", 5⟩, ⟨"f", "art", 6⟩]⟩]⟩

/-- A first batch whose first five pairs have no candidates and whose
remaining six pairs all match. -/
def staleFirstBatch : List (String × String) :=
  [("x1", "zz"), ("x2", "zz"), ("x3", "zz"), ("x4", "zz"), ("x5", "zz"),
   ("a", "art"), ("b", "art"), ("c", "art"), ("d", "art"), ("e", "art"),
   ("f", "art")]

/-- A second batch equal to the first batch's five-pair key segment:
none of its pairs has a candidate in the library. -/
def staleSecondBatch : List (String × String) :=
  [("x1", "zz"), ("x2", "zz"), ("x3", "zz"), ("x4", "zz"), ("x5", "zz")]

/-- C5 counterexample: within one run of a single `PlexClass` instance,
a first 11-pair batch stores its 6 matched tracks in `_track_cache` under
a key derived from only its first five pairs; a second batch equal to
that five-pair segment hits the key and gets the stored list back
verbatim — 6 matched tracks for a 5-pair batch whose every pair has zero
candidates in the library, violating both the length bound and the
empty-result guarantee of the claim. -/
theorem matchAllStaleCacheCounterexample :
    (matchSpotifyTracksInPlexSt (libOf staleCacheLib) [] staleFirstBatch).1.length
      = 6 ∧
    ((libOf staleCacheLib).searchArtists "zz" = [] ∧
      ∀ p ∈ staleSecondBatch,
        (libOf staleCacheLib).searchTracks p.1 p.2 = []) ∧
    (matchSpotifyTracksInPlexSt (libOf staleCacheLib)
        (matchSpotifyTracksInPlexSt (libOf staleCacheLib) [] staleFirstBatch).2
        staleSecondBatch).1.length = 6 ∧
    staleSecondBatch.length = 5 ∧
    (matchSpotifyTracksInPlexSt (libOf staleCacheLib)
        (matchSpotifyTracksInPlexSt (libOf staleCacheLib) [] staleFirstBatch).2
        staleSecondBatch).1 ≠ [] := by
  decide

/-- C5 (amended): for every call whose `_track_cache` key (built from
the batch's first five pairs) is absent from the instance cache — in
particular every call on a fresh instance — the matcher is best-effort:
it returns at most as many matched tracks as it is given pairs
(unmatched pairs are dropped, not errored, exceptions being swallowed
per lookup), and it returns the empty list when the target library has
zero candidates for every pair.  On a cache-key hit the previously
stored matched list is returned verbatim, which can exceed the batch
length and be non-empty even when no pair in the batch has a candidate,
as the counterexample shows. -/
theorem matchAllBestEffortOnMiss (lib : PlexLib)
    (tc : List (String × List PlexTrack)) (pairs : List (String × String))
    (hmiss : tc.lookup (trackCacheKey pairs) = none) :
    (matchSpotifyTracksInPlexSt lib tc pairs).1.length ≤ pairs.length ∧
    ((∀ a, lib.searchArtists a = []) →
      (matchSpotifyTracksInPlexSt lib tc pairs).1 = []) := by
  have hres : (matchSpotifyTracksInPlexSt lib tc pairs).1
      = matchSpotifyTracksInPlex lib pairs := by
    simp only [matchSpotifyTracksInPlexSt, hmiss]
    by_cases h : (matchSpotifyTracksInPlex lib pairs).isEmpty = true <;> simp [h]
  rw [hres]
  exact matchAllBestEffort lib pairs

/-- C5 witness: a fresh instance (empty cache) over an empty target
library returns the empty list for a two-pair batch and respects the
length bound. -/
theorem matchAllBestEffortOnMiss_witness :
    (matchSpotifyTracksInPlexSt emptyPlexLib []
        [("Song X", "Artist"), ("Song Y", "Artist")]).1.length ≤ 2 ∧
    (matchSpotifyTracksInPlexSt emptyPlexLib []
        [("Song X", "Artist"), ("Song Y", "Artist")]).1 = [] :=
  ⟨(matchAllBestEffortOnMiss emptyPlexLib []
      [("Song X", "Artist"), ("Song Y", "Artist")] rfl).1,
    (matchAllBestEffortOnMiss emptyPlexLib []
      [("Song X", "Artist"), ("Song Y", "Artist")] rfl).2 (fun _ => rfl)⟩

/-- A library with two candidates for the title "Song X": one by
"Artist" (whose name is contained in the requested artist
"Artist (feat. Someone)"), one by the unrelated "Unrelated". -/
def broadTierLib : MusicLibrary :=
  ⟨[⟨"Artist", [⟨"Song X", "Artist", 1⟩]⟩,
    ⟨"Unrelated", [⟨"Song X", "Unrelated", 2⟩]⟩]⟩

/-- C1 counterexample: the library holds two candidates for "Song X" and
exactly one candidate's artist name ("Artist") stands in the
equals/contains/contained-by relation to the requested artist
"Artist (feat. Someone)" (it is contained by it; neither candidate's name
contains the request), yet the matcher selects nothing at all: the code
has no broad title-only tier with its own containment comparison — both
of its lookups filter on the artist query, which matches no library
entry here, so the pair is dropped rather than resolved to the matching
candidate. -/
theorem broadTierCounterexample :
    strContainsSub (strToLower "Artist (feat. Someone)")
      (strToLower "Artist") = true ∧
    strContainsSub (strToLower "Artist (feat. Someone)")
      (strToLower "Unrelated") = false ∧
    strContainsSub (strToLower "Artist")
      (strToLower "Artist (feat. Someone)") = false ∧
    strContainsSub (strToLower "Unrelated")
      (strToLower "Artist (feat. Someone)") = false ∧
    matchSpotifyTracksInPlex (libOf broadTierLib)
      [("Song X", "Artist (feat. Someone)")] = [] := by
  decide

/-- C1 (amended): containment works in one direction only — when the
candidate's artist name contains the requested artist name
(case-insensitively), the artist-search tier finds that artist, the
matching candidate is selected by exact lowercased title, and the
unrelated-artist candidate is never selected; in the other direction
(candidate name merely contained in the request) the pair is dropped, as
the counterexample shows. -/
theorem artistContainmentOneWay (aName uName title qArtist : String)
    (k1 k2 : Nat)
    (h1 : strContainsSub (strToLower aName) (strToLower qArtist) = true)
    (h2 : strContainsSub (strToLower uName) (strToLower qArtist) = false) :
    matchSpotifyTracksInPlex
        (libOf ⟨[⟨aName, [⟨title, aName, k1⟩]⟩, ⟨uName, [⟨title, uName, k2⟩]⟩]⟩)
        [(title, qArtist)]
      = [⟨title, aName, k1⟩] ∧
    PlexTrack.mk title uName k2
      ∉ matchSpotifyTracksInPlex
        (libOf ⟨[⟨aName, [⟨title, aName, k1⟩]⟩, ⟨uName, [⟨title, uName, k2⟩]⟩]⟩)
        [(title, qArtist)] := by
  have hne : uName ≠ aName := by
    intro he
    rw [he, h1] at h2
    simp at h2
  have hmain : matchSpotifyTracksInPlex
      (libOf ⟨[⟨aName, [⟨title, aName, k1⟩]⟩, ⟨uName, [⟨title, uName, k2⟩]⟩]⟩)
      [(title, qArtist)]
      = [⟨title, aName, k1⟩] := by
    rw [matchSpotifyTracksInPlex]
    have hgroup : groupByArtist [(title, qArtist)] = [(qArtist, [title])] := rfl
    rw [hgroup]
    simp only [List.map_cons, List.map_nil, List.flatten_cons, List.flatten_nil,
      List.append_nil]
    rw [matchGroup]
    have hsearch : (libOf ⟨[⟨aName, [⟨title, aName, k1⟩]⟩,
        ⟨uName, [⟨title, uName, k2⟩]⟩]⟩).searchArtists qArtist
        = [⟨aName, [⟨title, aName, k1⟩]⟩] := by
      simp [libOf, plexSearchArtists, List.filter_cons, List.filter_nil, h1, h2]
    rw [hsearch]
    simp only [List.isEmpty_cons, Bool.false_eq_true, if_false]
    have hbuild : buildArtistTracks [⟨aName, [⟨title, aName, k1⟩]⟩]
        = [(strToLower title, ⟨title, aName, k1⟩)] := rfl
    rw [hbuild]
    simp only [List.filterMap_cons, List.filterMap_nil, matchTitle, List.lookup,
      beq_self_eq_true]
  constructor
  · exact hmain
  · rw [hmain]
    intro hmem
    rcases List.mem_singleton.mp hmem with he
    exact hne (congrArg PlexTrack.grandparentTitle he)

/-- C1 witness: a candidate named "Artist feat. Someone" contains the
requested "Artist" and is selected over the unrelated candidate. -/
theorem artistContainmentOneWay_witness :
    strContainsSub (strToLower "Artist feat. Someone")
      (strToLower "Artist") = true ∧
    strContainsSub (strToLower "Unrelated") (strToLower "Artist") = false ∧
    matchSpotifyTracksInPlex
      (libOf ⟨[⟨"Artist feat. Someone",
          [⟨"Song X", "Artist feat. Someone", 1⟩]⟩,
        ⟨"Unrelated", [⟨"Song X", "Unrelated", 2⟩]⟩]⟩)
      [("Song X", "Artist")]
      = [⟨"Song X", "Artist feat. Someone", 1⟩] :=
  ⟨by decide, by decide,
    (artistContainmentOneWay "Artist feat. Someone" "Unrelated" "Song X"
      "Artist" 1 2 (by decide) (by decide)).1⟩

/-- A Plex interface over a library holding "Song X" by "Artist". -/
def plexLibOneSong : PlexLib := libOf ⟨[⟨"Artist", [⟨"Song X", "Artist", 1⟩]⟩]⟩

/-- A job whose playlist exists, has one track, and matches in Plex: the
pipeline runs to completion. -/
def successJobB : JobBehavior :=
  ⟨"sid", .ok "My Playlist", .ok [("Song X", "Artist")], none, plexLibOneSong,
    none, false, "October 12", false, true⟩

/-- A job whose source playlist is deleted or private: Spotify reports 404
for it. -/
def deletedJobB : JobBehavior :=
  ⟨"did", .notFound, .notFound, none, plexLibOneSong, none, false,
    "October 12", false, true⟩

/-- A job whose playlist and tracks exist but match nothing in Plex. -/
def noMatchJobB : JobBehavior :=
  ⟨"nid", .ok "My Playlist", .ok [("Song X", "Artist")], none, emptyPlexLib,
    none, false, "October 12", false, true⟩

/-- A job whose worker does not finish within the 300-second budget. -/
def timedOutJobB : JobBehavior :=
  ⟨"tid", .ok "My Playlist", .ok [("Song X", "Artist")], none, emptyPlexLib,
    none, false, "October 12", false, false⟩

/-- A job whose worker raises an exception that escapes the pipeline's
inner handlers (a generic failure). -/
def failingJobB : JobBehavior :=
  ⟨"fid", .ok "My Playlist", .ok [("Song X", "Artist")], none, emptyPlexLib,
    none, false, "October 12", true, true⟩

/-- C2 counterexample: a deleted source playlist does not terminate in a
distinct skipped outcome: the job's only terminal record is the boolean
success flag, which is `true` — identical to that of a fully successful
job — and the sequential driver counts the job in `completed_playlists`.
The two-counter summary has no skipped bucket and carries no
NotFound-tagged reason. -/
theorem notFoundOutcomeCounterexample :
    deletedJobB.nameResp = SpotifyResponse.notFound ∧
    processPlaylist successJobB = (PipelineExit.success,
      [PlexEffect.createPlaylist "My Playlist" [⟨"Song X", "Artist", 1⟩],
        PlexEffect.editSummary "My Playlist"]) ∧
    processPlaylistWithTimeout deletedJobB = true ∧
    processPlaylistWithTimeout deletedJobB
      = processPlaylistWithTimeout successJobB ∧
    processSequential [deletedJobB] = (1, 0) := by
  decide

/-- C2 (amended): a deleted/private source playlist short-circuits the
pipeline with no target-library mutation — `get_playlist_name` returns
the non-empty "Unavailable Playlist (id)" fallback (never `None`), marks
the playlist unavailable so the track fetch yields the empty list, and
the job exits at the empty-track step — and the job outcome recorded is
success (counted as completed), not failed; no distinct skipped state
exists. -/
theorem notFoundShortCircuit (b : JobBehavior)
    (hn : b.nameResp = SpotifyResponse.notFound)
    (hr : b.raisesUnexpected = false) (hc : b.completesInTime = true) :
    processPlaylist b = (PipelineExit.noTracks, []) ∧
    processPlaylistWithTimeout b = true := by
  constructor
  · have hne : ("Unavailable Playlist (" ++ b.pid ++ ")") ≠ "" :=
      string_ne_empty_of_data_ne_nil _
        (data_append_ne_nil _ _ (data_append_ne_nil _ _ (by decide)))
    simp only [processPlaylist, hn, getPlaylistNameSt, getPlaylistTracks]
    rw [if_neg hne]
    simp
  · simp [processPlaylistWithTimeout, hr, hc]

/-- C2 witness: the concrete deleted-playlist job exits at the
empty-track step with no Plex effect and is recorded successful. -/
theorem notFoundShortCircuit_witness :
    processPlaylist deletedJobB = (PipelineExit.noTracks, []) ∧
    processPlaylistWithTimeout deletedJobB = true :=
  notFoundShortCircuit deletedJobB rfl rfl rfl

/-- C3 counterexample: a playlist whose matching step produces zero
matched tracks does not terminate in a skipped outcome: the job's
boolean outcome is `true` — identical to a fully successful job's — and
the driver counts it in `completed_playlists`; no skipped bucket exists. -/
theorem noMatchesOutcomeCounterexample :
    matchSpotifyTracksInPlex noMatchJobB.lib [("Song X", "Artist")] = [] ∧
    processPlaylist noMatchJobB = (PipelineExit.noMatches, []) ∧
    processPlaylistWithTimeout noMatchJobB = true ∧
    processPlaylistWithTimeout noMatchJobB
      = processPlaylistWithTimeout successJobB ∧
    processSequential [noMatchJobB] = (1, 0) := by
  decide

/-- C3 (amended): a playlist with zero matched tracks exits the pipeline
before any playlist creation, with no target-library mutation, and the
job is recorded as success (counted as completed) — in particular not as
failed; there is no distinct skipped state. -/
theorem noMatchesOutcome (b : JobBehavior) (name : String)
    (tracks : List (String × String))
    (hn : b.nameResp = SpotifyResponse.ok name) (hname : name ≠ "")
    (ht : b.tracksResp = SpotifyResponse.ok tracks) (htne : tracks ≠ [])
    (hmatch : matchSpotifyTracksInPlex b.lib tracks = [])
    (hr : b.raisesUnexpected = false) (hc : b.completesInTime = true) :
    processPlaylist b = (PipelineExit.noMatches, []) ∧
    processPlaylistWithTimeout b = true := by
  constructor
  · have hie : tracks.isEmpty = false := by
      cases tracks with
      | nil => exact absurd rfl htne
      | cons x xs => rfl
    simp only [processPlaylist, hn, ht, getPlaylistNameSt, getPlaylistTracks,
      if_neg hname]
    simp [hie, hmatch]
  · simp [processPlaylistWithTimeout, hr, hc]

/-- C3 witness: the concrete zero-match job exits before playlist
creation and is recorded successful. -/
theorem noMatchesOutcome_witness :
    processPlaylist noMatchJobB = (PipelineExit.noMatches, []) ∧
    processPlaylistWithTimeout noMatchJobB = true :=
  noMatchesOutcome noMatchJobB "My Playlist" [("Song X", "Artist")] rfl
    (by decide) rfl (by decide) rfl rfl rfl

theorem processSequential_count (jobs : List JobBehavior) (c f : Nat) :
    (jobs.foldl
        (fun acc b =>
          if processPlaylistWithTimeout b then (acc.1 + 1, acc.2)
          else (acc.1, acc.2 + 1)) (c, f)).1
      + (jobs.foldl
          (fun acc b =>
            if processPlaylistWithTimeout b then (acc.1 + 1, acc.2)
            else (acc.1, acc.2 + 1)) (c, f)).2
      = c + f + jobs.length := by
  induction jobs generalizing c f with
  | nil => simp
  | cons b bs ih =>
    by_cases h : processPlaylistWithTimeout b = true
    · rw [List.foldl_cons]
      simp only [h, if_true]
      rw [ih]
      simp
      omega
    · rw [List.foldl_cons]
      simp only [h, if_false]
      rw [ih]
      simp
      omega

/-- C7 counterexample: the orchestrator records no `timed_out` terminal
outcome: a timed-out job's only record is the boolean `False`, identical
to a generic worker failure's — the two are indistinguishable in the
run's terminal state (both land in `failed_playlists`). -/
theorem timeoutOutcomeCounterexample :
    timedOutJobB.completesInTime = false ∧
    processPlaylistWithTimeout timedOutJobB = false ∧
    processPlaylistWithTimeout failingJobB = false ∧
    processPlaylistWithTimeout timedOutJobB
      = processPlaylistWithTimeout failingJobB ∧
    processSequential [timedOutJobB, successJobB] = (1, 1) := by
  decide

/-- C7 (amended): a job whose worker misses the 300-second budget is
recorded as failed (`False`) — there is no distinct timed-out record —
the abandoned worker's eventual result is discarded (the outcome is
independent of what the worker would have produced), and the run still
completes: every job before and after the timed-out one is processed and
counted. -/
theorem timeoutAbandonment (pre post : List JobBehavior) (b : JobBehavior)
    (r : Bool) (hc : b.completesInTime = false) :
    processPlaylistWithTimeout b = false ∧
    processPlaylistWithTimeout { b with raisesUnexpected := r } = false ∧
    (processSequential (pre ++ b :: post)).1
      + (processSequential (pre ++ b :: post)).2
      = pre.length + post.length + 1 := by
  refine ⟨?_, ?_, ?_⟩
  · simp [processPlaylistWithTimeout, hc]
  · simp [processPlaylistWithTimeout, hc]
  · rw [processSequential, processSequential_count]
    simp [List.length_append]
    omega

/-- C7 witness: the concrete timed-out job is recorded failed whatever
its late result would have been, and the following job still runs. -/
theorem timeoutAbandonment_witness :
    processPlaylistWithTimeout timedOutJobB = false ∧
    processPlaylistWithTimeout
      { timedOutJobB with raisesUnexpected := true } = false ∧
    (processSequential ([] ++ timedOutJobB :: [successJobB])).1
      + (processSequential ([] ++ timedOutJobB :: [successJobB])).2 = 2 :=
  timeoutAbandonment [] [successJobB] timedOutJobB true rfl

end SpotifyToPlex
